import Mathlib

/-!
Shallow embedding of the fastArxiv repository (src/papers.py, src/utils.py).

`DVal` models the Python values that flow through the pipeline: strings,
dicts (association lists in insertion order), lists, and None.  Exceptions
are modelled with `Except`; the search request and the document fetch are
oracles passed in as function parameters, so a result that is independent of
the oracle is a result obtained without touching the network.  The
iteration order of a Python `set` of strings (hash-seed dependent) is a
parameter `ord` constrained by `IsSetOrder`.
-/

/-- Python value as produced by xml_to_dict and consumed by the pipeline. -/
inductive DVal where
  | vstr (s : String)
  | vdict (d : List (String × DVal))
  | vlist (l : List DVal)
  | vnone

/-- Failure modes of utils.load_pdf_text.  `invalidURL` is the ValueError
raised before any network activity; the others are PDFDownloadError cases. -/
inductive PdfFail where
  | invalidURL (url : String)
  | timeout
  | httpStatus
  | noPages
  | emptyText
  | otherError
deriving DecidableEq

/-- Python exceptions that can escape the modelled functions. -/
inductive PyErr where
  | attributeError
  | typeError
  | httpError
  | xmlParsingError
  | pdf (e : PdfFail)
deriving DecidableEq

/-- Ordered-dict lookup (keys are unique in a Python dict; first binding wins). -/
def dictGet : List (String × DVal) → String → Option DVal
  | [], _ => none
  | p :: rest, k => if p.1 = k then some p.2 else dictGet rest k

/-- Ordered-dict assignment: overwrite in place, else append at the end. -/
def dictSet : List (String × DVal) → String → DVal → List (String × DVal)
  | [], k, v => [(k, v)]
  | p :: rest, k, v => if p.1 = k then (k, v) :: rest else p :: dictSet rest k v

/-- Python truthiness of a DVal. -/
def truthy : DVal → Bool
  | .vstr s => !(s == "")
  | .vdict d => !d.isEmpty
  | .vlist l => !l.isEmpty
  | .vnone => false

/-- Python hashability: strings and None are hashable, dicts and lists are not. -/
def isHashable : DVal → Bool
  | .vstr _ => true
  | .vnone => true
  | _ => false

def isVstrB : DVal → Bool
  | .vstr _ => true
  | _ => false

def isVlist : DVal → Bool
  | .vlist _ => true
  | _ => false

def asStr : DVal → String
  | .vstr s => s
  | _ => ""

/-- Python `v.get(k, dflt)`: AttributeError unless `v` is a dict. -/
def pyGet (v : DVal) (k : String) (dflt : DVal) : Except PyErr DVal :=
  match v with
  | .vdict d => .ok ((dictGet d k).getD dflt)
  | _ => .error .attributeError

/-- Evaluate a list comprehension left to right; the first exception escapes. -/
def mapE (f : α → Except PyErr β) : List α → Except PyErr (List β)
  | [] => .ok []
  | a :: rest =>
    match f a with
    | .error e => .error e
    | .ok b =>
      match mapE f rest with
      | .error e => .error e
      | .ok bs => .ok (b :: bs)

/-- Python substring test `pat in s`, on char lists. -/
def subAux (pat : List Char) : List Char → Bool
  | [] => pat.isEmpty
  | c :: rest => pat.isPrefixOf (c :: rest) || subAux pat rest

def strContains (s pat : String) : Bool := subAux pat.toList s.toList

/-- Python str.replace on char lists: left-to-right, non-overlapping, skipping
each match.  The fuel argument only makes the recursion structural; it is
instantiated with the list length, which one step always consumes at least
one character of. -/
def replaceFuel (pat rep : List Char) : Nat → List Char → List Char
  | _, [] => []
  | 0, l => l
  | n + 1, c :: rest =>
    if pat.isPrefixOf (c :: rest) ∧ pat ≠ [] then
      rep ++ replaceFuel pat rep n (List.drop (pat.length - 1) rest)
    else
      c :: replaceFuel pat rep n rest

/-- Python `s.replace(pat, rep)` for the nonempty patterns used by the code. -/
def replaceStr (s pat rep : String) : String :=
  if pat = "" then s
  else String.mk (replaceFuel pat.toList rep.toList s.toList.length s.toList)

/-- The whitespace characters stripped by Python str.strip(). -/
def isSpaceChar (c : Char) : Bool :=
  c == ' ' || c == '\t' || c == '\n' || c == '\r' || c == '\x0B' || c == '\x0C'

/-- Python str.strip(). -/
def trimStr (s : String) : String :=
  String.mk (((s.toList.dropWhile isSpaceChar).reverse.dropWhile isSpaceChar).reverse)

/-- Python "".join. -/
def joinStr : List String → String
  | [] => ""
  | s :: rest => s ++ joinStr rest

/-- utils.clean_text applied to a string: the CHAR_REPLACEMENTS chain, then strip. -/
def cleanTextStr (s : String) : String :=
  trimStr (replaceStr (replaceStr (replaceStr (replaceStr (replaceStr (replaceStr
    s "\n" " ") "\t" " ") "\n\n" " ") "\t\t" " ") "  " " ") "#text" "")

/-- utils.clean_text on any value: non-strings and empty strings pass through. -/
def cleanTextD : DVal → DVal
  | .vstr s => if s = "" then .vstr s else .vstr (cleanTextStr s)
  | v => v

/-- utils.clean_paper_chunk. -/
def cleanPaperChunk (s : String) : String :=
  if s = "" then s else replaceStr (replaceStr s "\\\\n" "\n") "\\\\t" "\t"

/-- One extracted link dict, with keys "href", "rel", "type". -/
structure Link where
  href : DVal
  rel : DVal
  type : DVal

/-- The link dict built by utils.extract_links from one attribute node. -/
def linkOf (d : List (String × DVal)) : Link :=
  { href := (dictGet d "@href").getD .vnone
    rel := (dictGet d "@rel").getD .vnone
    type := (dictGet d "@type").getD .vnone }

/-- utils.extract_authors (utils.py:257-278). -/
def extract_authors (author : DVal) : Except PyErr (List DVal) :=
  if truthy author then
    match author with
    | .vdict d =>
      match pyGet ((dictGet d "name").getD (.vdict [])) "#text" .vnone with
      | .error e => .error e
      | .ok name => .ok (if truthy name then [name] else [])
    | .vlist people =>
      match mapE (fun p =>
          match pyGet p "name" (.vdict []) with
          | .error e => .error e
          | .ok nf => pyGet nf "#text" .vnone) people with
      | .error e => .error e
      | .ok names => .ok (names.filter truthy)
    | _ => .error .typeError
  else .ok []

/-- utils.extract_links (utils.py:281-310). -/
def extract_links (link : DVal) : Except PyErr (List Link) :=
  if truthy link then
    match link with
    | .vdict d => .ok [linkOf d]
    | .vlist urls =>
      mapE (fun u =>
          match u with
          | .vdict d => .ok (linkOf d)
          | _ => .error .attributeError) (urls.filter truthy)
    | _ => .error .typeError
  else .ok []

/-- Admissible conversions of a Python set of strings back to a list: any
ordering of the distinct elements.  CPython's actual order depends on the
interpreter's string hashing. -/
def IsSetOrder (f : List String → List String) : Prop :=
  ∀ l : List String, List.Perm (f l) l.dedup

/-- utils.extract_category (utils.py:313-332); `ord` is the set-iteration
order the runtime uses in `list(set(filter(None, terms)))`.  After the
truthiness filter, a kept unhashable term makes `set` raise TypeError;
otherwise every kept term is a nonempty string. -/
def extract_category (ord : List String → List String) (category : DVal) :
    Except PyErr (List DVal) :=
  if truthy category then
    match category with
    | .vdict d =>
      let term := (dictGet d "@term").getD .vnone
      .ok (if truthy term then [term] else [])
    | .vlist entries =>
      match mapE (fun e => pyGet e "@term" .vnone) (entries.filter truthy) with
      | .error e => .error e
      | .ok terms =>
        let kept := terms.filter truthy
        if kept.all isHashable then .ok ((ord (kept.map asStr)).map DVal.vstr)
        else .error .typeError
    | _ => .error .typeError
  else .ok []

/-- utils.extract_primary_category (utils.py:335-350). -/
def extract_primary_category (pc : DVal) : Except PyErr DVal :=
  if truthy pc then
    match pc with
    | .vdict d => .ok ((dictGet d "@term").getD .vnone)
    | _ => .error .typeError
  else .ok .vnone

/-- Python `needle in container`, as used by `"/pdf" in link["href"]`:
substring test on a string, key membership on a dict, element membership on a
list, TypeError on None. -/
def pyContains (container : DVal) (needle : String) : Except PyErr Bool :=
  match container with
  | .vstr s => .ok (strContains s needle)
  | .vdict d => .ok (d.any (fun p => p.1 == needle))
  | .vlist xs => .ok (xs.any (fun v =>
      match v with
      | .vstr s => s == needle
      | _ => false))
  | .vnone => .error .typeError

/-- The `for link in links` loop of Arxiv.extract_pdf_link. -/
def pdfLoop : List Link → Except PyErr DVal
  | [] => .ok .vnone
  | l :: rest =>
    match pyContains l.href "/pdf" with
    | .error e => .error e
    | .ok true => .ok l.href
    | .ok false => pdfLoop rest

/-- Arxiv.extract_pdf_link (papers.py:117-132). -/
def extract_pdf_link (links : List Link) : Except PyErr DVal :=
  if links.isEmpty then .ok .vnone else pdfLoop links

/-- Spec-side description of the link selection rule: the first href, in
original order, containing the literal "/pdf"; None when no link matches. -/
def firstPdfSpec : List Link → DVal
  | [] => .vnone
  | l :: rest =>
    match l.href with
    | .vstr s => if strContains s "/pdf" then .vstr s else firstPdfSpec rest
    | _ => firstPdfSpec rest

/-- Characters allowed in a URL scheme (urllib's scheme_chars). -/
def schemeChar (c : Char) : Bool :=
  c.isAlpha || c.isDigit || c == '+' || c == '-' || c == '.'

/-- urllib.parse.urlparse(url).scheme, as an Option (none when missing): a
scheme exists when a colon occurs after a nonempty alpha-led run of
scheme characters. -/
def urlScheme (url : String) : Option String :=
  let cs := url.toList
  let pre := cs.takeWhile (fun c => !(c == ':'))
  if pre.length = cs.length then none
  else
    match pre with
    | [] => none
    | c :: _ =>
      if c.isAlpha && pre.all schemeChar then some (String.mk (pre.map Char.toLower))
      else none

/-- Outcome of the HTTP GET plus PdfReader decode inside load_pdf_text;
`pages` carries each page's extract_text() result. -/
inductive FetchResult where
  | timeout
  | httpError
  | badPdf
  | pages (ps : List String)

/-- utils.load_pdf_text (utils.py:353-389).  The `net` oracle stands for the
HTTP client plus PDF decoding and is only consulted after URL validation. -/
def load_pdf_text (net : String → FetchResult) (url : String) : Except PdfFail String :=
  if url = "" ∨ urlScheme url = none then .error (.invalidURL url)
  else
    match net url with
    | .timeout => .error .timeout
    | .httpError => .error .httpStatus
    | .badPdf => .error .otherError
    | .pages ps =>
      if ps.isEmpty then .error .noPages
      else
        let text := joinStr ((ps.filter (fun p => !(p == ""))).map cleanPaperChunk)
        if trimStr text = "" then .error .emptyText else .ok text

/-- The cleaned metadata record built by Arxiv.__get_raw, with the optional
`content` attached later by the pipeline. -/
structure RawPaper where
  id : DVal
  updated : DVal
  published : DVal
  title : DVal
  summary : DVal
  author : List DVal
  links : List Link
  category : List DVal
  primary_category : DVal
  content : DVal

/-- `arxiv_data.get(k, {}).get("#text", None)`. -/
def textField (item : DVal) (k : String) : Except PyErr DVal :=
  match pyGet item k (.vdict []) with
  | .error e => .error e
  | .ok v => pyGet v "#text" .vnone

/-- The first seven fields of Arxiv.__get_raw, evaluated in source order. -/
structure PreFields where
  id : DVal
  updated : DVal
  published : DVal
  title : DVal
  summary : DVal
  author : List DVal
  links : List Link

def preFields (item : DVal) : Except PyErr PreFields := do
  let idv ← textField item "id"
  let upd ← textField item "updated"
  let pub ← textField item "published"
  let ttl ← textField item "title"
  let smry ← textField item "summary"
  let auth ← extract_authors (← pyGet item "author" .vnone)
  let lks ← extract_links (← pyGet item "link" .vnone)
  pure { id := idv, updated := upd, published := pub, title := ttl,
         summary := smry, author := auth, links := lks }

/-- Arxiv.__get_raw (papers.py:158-182): every field is read with .get and a
default, so a missing key degrades instead of raising; clean_text is applied
to the title.  The dead `except KeyError` of the source is unreachable. -/
def get_raw (ord : List String → List String) (item : DVal) : Except PyErr RawPaper := do
  let p ← preFields item
  let cat ← extract_category ord (← pyGet item "category" .vnone)
  let pc ← extract_primary_category (← pyGet item "primary_category" .vnone)
  pure { id := p.id, updated := p.updated, published := p.published,
         title := cleanTextD p.title, summary := p.summary, author := p.author,
         links := p.links, category := cat, primary_category := pc,
         content := .vnone }

/-- The document fetch on a pdf-link value; urlparse raises TypeError when the
value is not a string. -/
def loadPdfTextD (net : String → FetchResult) (url : DVal) : Except PyErr String :=
  match url with
  | .vstr s =>
    match load_pdf_text net s with
    | .ok t => .ok t
    | .error e => .error (.pdf e)
  | _ => .error .typeError

/-- Arxiv.process_item (papers.py:184-203): `.ok (some r)` means the record
was saved to disk; `.ok none` means only a warning was logged (no pdf link,
nothing saved); `.error` is an exception later reported through the future. -/
def process_item (net : String → FetchResult) (ord : List String → List String)
    (item : DVal) : Except PyErr (Option RawPaper) := do
  let s ← get_raw ord item
  let pdf ← extract_pdf_link s.links
  if truthy pdf then do
    let text ← loadPdfTextD net pdf
    pure (some { s with content := cleanTextD (.vstr text) })
  else
    pure none

/-- Records yielded by the per-entry body of Arxiv.read_papers
(papers.py:279-292): exceptions are logged and skipped, and an entry without
a pdf link yields nothing (only a warning is logged). -/
def readEntryEmit (net : String → FetchResult) (ord : List String → List String)
    (item : DVal) : List RawPaper :=
  match (do
      let s ← get_raw ord item
      let pdf ← extract_pdf_link s.links
      if truthy pdf then do
        let text ← loadPdfTextD net pdf
        pure (some { s with content := cleanTextD (.vstr text) })
      else
        pure none : Except PyErr (Option RawPaper)) with
  | .ok (some r) => [r]
  | _ => []

/-- Python iteration over the value stored under "entry": a list iterates its
items, a dict iterates its keys, a string its characters, None raises. -/
def pyIter : DVal → Except PyErr (List DVal)
  | .vlist xs => .ok xs
  | .vdict d => .ok (d.map (fun p => DVal.vstr p.1))
  | .vstr s => .ok (s.toList.map (fun c => DVal.vstr (String.singleton c)))
  | .vnone => .error .typeError

/-- Outcome of the search GET + raise_for_status + xml_to_dict for one query. -/
inductive SearchOutcome where
  | netError
  | parseError
  | ok (doc : List (String × DVal))

/-- Arxiv.fetch_and_process (papers.py:205-231).  On success the list holds
one element per submitted future (whose exceptions are only logged); the
entry value is iterated directly, with no coercion of a single dict. -/
def fetch_and_process (env : String → SearchOutcome) (net : String → FetchResult)
    (ord : List String → List String) (q : String) :
    Except PyErr (List (Except PyErr (Option RawPaper))) :=
  match env q with
  | .netError => .error .httpError
  | .parseError => .error .xmlParsingError
  | .ok doc =>
    match dictGet doc "entry" with
    | none => .ok []
    | some entryVal =>
      match pyIter entryVal with
      | .error e => .error e
      | .ok items => .ok (items.map (fun it => process_item net ord it))

/-- Arxiv.download_papers (papers.py:233-251): a sequential loop inside one
try/except, so the first failing query aborts the loop and the exception is
re-raised as PaperGeneralError.  Returns the attempted queries and whether
the loop completed without raising. -/
def download_papers (env : String → SearchOutcome) (net : String → FetchResult)
    (ord : List String → List String) : List String → List String × Bool
  | [] => ([], true)
  | q :: qs =>
    match fetch_and_process env net ord q with
    | .error _ => ([q], false)
    | .ok _ =>
      let r := download_papers env net ord qs
      (q :: r.1, r.2)

/-- Arxiv.read_papers (papers.py:254-298): per-query failures are logged and
skipped, and the entry value is coerced to a one-element list when it is not
a list. -/
def read_papers (env : String → SearchOutcome) (net : String → FetchResult)
    (ord : List String → List String) (queries : List String) : List RawPaper :=
  queries.flatMap (fun q =>
    match env q with
    | .netError => []
    | .parseError => []
    | .ok doc =>
      match dictGet doc "entry" with
      | none => []
      | some entryVal =>
        let entries := match entryVal with
          | .vlist xs => xs
          | v => [v]
        entries.flatMap (fun it => readEntryEmit net ord it))

/-- XML element as seen by xml.etree: tag (possibly namespaced), attributes in
document order, child elements in document order, and direct text. -/
inductive XmlElem where
  | mk (tag : String) (attrib : List (String × String)) (children : List XmlElem)
      (text : Option String)

def XmlElem.tag : XmlElem → String
  | .mk t _ _ _ => t

def XmlElem.children : XmlElem → List XmlElem
  | .mk _ _ c _ => c

/-- `child.tag.split("}")[-1]`: the part of the tag after the last brace
character, i.e. the tag with any namespace prefix removed. -/
def stripNs (s : String) : String :=
  String.mk ((s.toList.reverse.takeWhile (fun c => !(c == '}'))).reverse)

/-- Insertion of one converted child under its stripped tag
(utils.py:241-246): an existing value is promoted to a list when it is not
one already, and the new value is appended. -/
def insertChild (res : List (String × DVal)) (tag : String) (v : DVal) :
    List (String × DVal) :=
  match dictGet res tag with
  | none => dictSet res tag v
  | some (.vlist xs) => dictSet res tag (.vlist (xs ++ [v]))
  | some old => dictSet res tag (.vlist [old, v])

mutual

/-- utils.xml_to_dict (utils.py:217-254) on a parsed element: attribute keys
are prefixed with "@", children are inserted under their stripped tags, and
non-whitespace direct text is stored under "#text" (after the child loop). -/
def xml_to_dict : XmlElem → List (String × DVal)
  | .mk _ attrib children text =>
    let base := attrib.map (fun p => ("@" ++ p.1, DVal.vstr p.2))
    let res := xmlFold base children
    match text with
    | none => res
    | some s => if trimStr s = "" then res else dictSet res "#text" (.vstr (trimStr s))

/-- The `for child in element` loop of xml_to_dict. -/
def xmlFold : List (String × DVal) → List XmlElem → List (String × DVal)
  | res, [] => res
  | res, c :: cs => xmlFold (insertChild res (stripNs c.tag) (.vdict (xml_to_dict c))) cs

end

/-- One insertion step on the value already stored under a tag. -/
def stepVal : Option DVal → DVal → DVal
  | none, v => v
  | some (.vlist xs), v => .vlist (xs ++ [v])
  | some old, v => .vlist [old, v]

/-- Value stored under a tag after inserting the values `vs` on top of a
previous value `prev`: absent for no occurrence, the value itself for one,
an ordered list for two or more. -/
def expectVal (prev : Option DVal) (vs : List DVal) : Option DVal :=
  match vs with
  | [] => prev
  | v :: rest =>
    match prev with
    | none =>
      match rest with
      | [] => some v
      | _ => some (.vlist (v :: rest))
    | some (.vlist xs) => some (.vlist (xs ++ v :: rest))
    | some old => some (.vlist (old :: v :: rest))

def isOkB : Except PyErr α → Bool
  | .ok _ => true
  | .error _ => false

/-- The entry's extracted links yield no usable pdf link: extract_pdf_link
returns a falsy value without raising. -/
def noPdfFor (ord : List String → List String) (item : DVal) : Bool :=
  match (get_raw ord item >>= fun s => extract_pdf_link s.links) with
  | .ok pdf => !truthy pdf
  | .error _ => false

/-- First-occurrence deduplication: one admissible set-iteration order. -/
def stdOrd : List String → List String := fun l => l.dedup

/-- The reversed deduplication: another admissible set-iteration order. -/
def revOrd : List String → List String := fun l => l.dedup.reverse

/-- Entry with a title and a single non-pdf link. -/
def entryNoPdf : DVal :=
  .vdict [("title", .vdict [("#text", .vstr "NoPdf")]),
          ("link", .vdict [("@href", .vstr "http://arxiv.org/abs/101")])]

/-- Document oracle that always returns one page of text. -/
def netPages : String → FetchResult := fun _ => .pages ["Hello world"]

/-- Environment where query "bad" fails on the search call and every other
query returns a response with no entries. -/
def envBad : String → SearchOutcome := fun q =>
  if q = "bad" then .netError else .ok []

/-- A single entry node, as it appears when a query returns one result. -/
def entrySingle : List (String × DVal) :=
  [("id", .vdict [("#text", .vstr "1")]),
   ("title", .vdict [("#text", .vstr "T")]),
   ("link", .vdict [("@href", .vstr "http://arxiv.org/pdf/1v1")])]

/-- Environment whose response holds `entrySingle` as a single dict under
"entry" (no list around it). -/
def envSingle : String → SearchOutcome := fun _ => .ok [("entry", .vdict entrySingle)]

/-- A category value with two distinct terms. -/
def catTwo : DVal :=
  .vlist [.vdict [("@term", .vstr "cs.AI")], .vdict [("@term", .vstr "cs.LG")]]

/-- Entry whose only field is the two-term category list. -/
def entryTwoCats : DVal := .vdict [("category", catTwo)]

/-- Entry with a title but no "id" key. -/
def entryNoId : DVal := .vdict [("title", .vdict [("#text", .vstr "Sample")])]

/-- Links list whose second link lacks "@href", as extract_links produces for
a link node without that attribute. -/
def linksNoneHref : List Link :=
  [{ href := .vstr "http://arxiv.org/abs/1", rel := .vnone, type := .vnone },
   { href := .vnone, rel := .vstr "alternate", type := .vnone }]

/-- Links whose hrefs are all strings; the second is the first pdf link. -/
def linksAllStr : List Link :=
  [{ href := .vstr "http://arxiv.org/abs/1", rel := .vnone, type := .vnone },
   { href := .vstr "http://arxiv.org/pdf/1v1", rel := .vnone, type := .vnone },
   { href := .vstr "http://arxiv.org/pdf/2v1", rel := .vnone, type := .vnone }]

/-! Helper lemmas. -/

theorem ebind_ok (a : α) (f : α → Except PyErr β) : (Except.ok a >>= f) = f a := rfl

theorem ebind_error (e : PyErr) (f : α → Except PyErr β) :
    (Except.error e >>= f) = Except.error e := rfl

theorem epure (a : α) : (pure a : Except PyErr α) = Except.ok a := rfl

/-! C8: invalid URLs fail fast in load_pdf_text. -/

/-- C8: for every URL that is empty or has no scheme, load_pdf_text fails with
the invalid-URL error for every network oracle — so no network operation can
influence (or be required for) the outcome — and this error is a different
value from the timeout, HTTP-status, no-pages and empty-text failures. -/
theorem c8_invalid_url_fails_fast (url : String) (h : url = "" ∨ urlScheme url = none) :
    ∀ net : String → FetchResult,
      load_pdf_text net url = .error (.invalidURL url) ∧
      PdfFail.invalidURL url ≠ .timeout ∧ PdfFail.invalidURL url ≠ .httpStatus ∧
      PdfFail.invalidURL url ≠ .noPages ∧ PdfFail.invalidURL url ≠ .emptyText := by
  intro net
  refine ⟨?_, fun hx => PdfFail.noConfusion hx, fun hx => PdfFail.noConfusion hx,
    fun hx => PdfFail.noConfusion hx, fun hx => PdfFail.noConfusion hx⟩
  unfold load_pdf_text
  rw [if_pos h]

/-- C8 witness: the empty URL, under an oracle that would happily return a
page, still yields the invalid-URL error. -/
theorem c8_witness :
    ("" = "" ∨ urlScheme "" = none) ∧
    (load_pdf_text netPages "" = .error (.invalidURL "") ∧
     PdfFail.invalidURL "" ≠ .timeout ∧ PdfFail.invalidURL "" ≠ .httpStatus ∧
     PdfFail.invalidURL "" ≠ .noPages ∧ PdfFail.invalidURL "" ≠ .emptyText) :=
  ⟨Or.inl rfl, c8_invalid_url_fails_fast "" (Or.inl rfl) netPages⟩

/-! C10: extract_pdf_link raises TypeError on a None href. -/

/-- C10: extract_links turns a link node without "@href" into a link whose
href is None, and extract_pdf_link applied to such a list raises TypeError
from the substring test instead of returning a URL string or None. -/
theorem c10_none_href_typeerror :
    extract_links (.vlist [.vdict [("@href", .vstr "http://arxiv.org/abs/1")],
        .vdict [("@rel", .vstr "alternate")]]) = .ok linksNoneHref ∧
    extract_pdf_link linksNoneHref = .error .typeError ∧
    (∀ v : DVal, extract_pdf_link linksNoneHref ≠ .ok v) := by
  refine ⟨rfl, rfl, ?_⟩
  intro v h
  have he : extract_pdf_link linksNoneHref = Except.error PyErr.typeError := rfl
  rw [he] at h
  exact Except.noConfusion h

/-! C3: __get_raw never fails for a missing required key. -/

/-- C3: contrary to the claimed MetadataError contract, __get_raw applied to
an entry that lacks the required key "id" does not fail at all: it succeeds
and the id field degrades to None like any optional field. -/
theorem c3_missing_id_degrades :
    (∃ r : RawPaper, get_raw stdOrd entryNoId = .ok r ∧ r.id = .vnone ∧
      r.title = .vstr "Sample") ∧
    isOkB (get_raw stdOrd entryNoId) = true :=
  ⟨⟨_, rfl, rfl, rfl⟩, rfl⟩

/-! C4: only streaming mode coerces a single entry dict to a list. -/

/-- C4: on a response whose "entry" key holds a single entry dict,
fetch_and_process iterates the dict directly — submitting its three KEY
strings as items, each of which fails with AttributeError, so the entry is
never processed — while read_papers coerces the same value to a one-element
list and yields the fully processed record. -/
theorem c4_single_entry_divergence :
    fetch_and_process envSingle netPages stdOrd "q" =
      .ok [.error .attributeError, .error .attributeError, .error .attributeError] ∧
    (∃ r : RawPaper, read_papers envSingle netPages stdOrd ["q"] = [r] ∧
      r.content = .vstr "Hello world" ∧ r.id = .vstr "1" ∧ r.title = .vstr "T") :=
  ⟨rfl, ⟨_, rfl, rfl, rfl, rfl⟩⟩

/-! C2: one failing query aborts the whole download_papers batch. -/

/-- C2 counterexample: with query "bad" failing on the search call, the batch
["bad", "good"] attempts only "bad", raises PaperGeneralError, and never
attempts "good" — refuting that queries after a pre-dispatch failure are
still attempted. -/
theorem c2_counterexample :
    download_papers envBad netPages stdOrd ["bad", "good"] = (["bad"], false) ∧
    "good" ∉ (download_papers envBad netPages stdOrd ["bad", "good"]).1 := by
  refine ⟨rfl, ?_⟩
  intro h
  have he : (download_papers envBad netPages stdOrd ["bad", "good"]).1 = ["bad"] := rfl
  rw [he] at h
  simp at h

/-- C2 amended: a pre-dispatch failure at a query aborts the remaining batch:
with every earlier query succeeding, download_papers attempts exactly the
earlier queries plus the failing one, raises (completed = false), and
attempts none of the later queries. -/
theorem c2_amended_abort (env : String → SearchOutcome) (net : String → FetchResult)
    (ord : List String → List String) (qs1 : List String) (q : String) (qs2 : List String) :
    (∀ x ∈ qs1, isOkB (fetch_and_process env net ord x) = true) →
    isOkB (fetch_and_process env net ord q) = false →
    download_papers env net ord (qs1 ++ q :: qs2) = (qs1 ++ [q], false) := by
  induction qs1 with
  | nil =>
    intro _ h2
    cases hq : fetch_and_process env net ord q with
    | error e => simp [download_papers, hq]
    | ok v => rw [hq] at h2; simp [isOkB] at h2
  | cons a as ih =>
    intro h1 h2
    have ha := h1 a (List.mem_cons_self a as)
    cases hfa : fetch_and_process env net ord a with
    | error e => rw [hfa] at ha; simp [isOkB] at ha
    | ok v =>
      have ihr := ih (fun x hx => h1 x (List.mem_cons_of_mem a hx)) h2
      simp [download_papers, hfa, ihr]

/-- C2 witness: "good" succeeds, "bad" fails, and the batch
["good", "bad", "after"] attempts exactly ["good", "bad"]. -/
theorem c2_witness :
    (∀ x ∈ ["good"], isOkB (fetch_and_process envBad netPages stdOrd x) = true) ∧
    isOkB (fetch_and_process envBad netPages stdOrd "bad") = false ∧
    download_papers envBad netPages stdOrd (["good"] ++ "bad" :: ["after"]) =
      (["good"] ++ ["bad"], false) :=
  ⟨by decide, by decide,
    c2_amended_abort envBad netPages stdOrd ["good"] "bad" ["after"] (by decide) (by decide)⟩

/-! C1: entries without a pdf link are dropped, not emitted. -/

/-- C1 counterexample: for an entry whose extracted links contain no "/pdf"
href, process_item saves nothing (it returns after only a warning) and the
read_papers per-entry body yields nothing — the entry produces no record at
all, instead of one record with content absent. -/
theorem c1_counterexample :
    process_item netPages stdOrd entryNoPdf = .ok none ∧
    (∀ r : RawPaper, process_item netPages stdOrd entryNoPdf ≠ .ok (some r)) ∧
    readEntryEmit netPages stdOrd entryNoPdf = [] := by
  refine ⟨rfl, ?_, rfl⟩
  intro r h
  have he : process_item netPages stdOrd entryNoPdf = Except.ok none := rfl
  rw [he] at h
  simp at h

/-- C1 amended: for every entry whose pdf-link extraction succeeds with a
falsy result (no "/pdf" href among its links), both modes drop the entry:
process_item saves no record and read_papers yields nothing for it, for
every document-fetch oracle. -/
theorem c1_amended_entry_dropped (ord : List String → List String) (item : DVal)
    (h : noPdfFor ord item = true) (net : String → FetchResult) :
    process_item net ord item = .ok none ∧ readEntryEmit net ord item = [] := by
  unfold noPdfFor at h
  cases hg : get_raw ord item with
  | error e => rw [hg, ebind_error] at h; simp at h
  | ok s =>
    rw [hg, ebind_ok] at h
    cases he : extract_pdf_link s.links with
    | error e => rw [he] at h; simp at h
    | ok pdf =>
      rw [he] at h
      simp at h
      constructor
      · simp [process_item, hg, ebind_ok, he, h, epure]
      · simp [readEntryEmit, hg, ebind_ok, he, h, epure]

/-- C1 witness: the concrete no-pdf entry is dropped by both modes. -/
theorem c1_witness :
    process_item netPages stdOrd entryNoPdf = Except.ok none ∧
    readEntryEmit netPages stdOrd entryNoPdf = [] :=
  c1_amended_entry_dropped stdOrd entryNoPdf (by decide) netPages

/-! C6: extract_pdf_link selects the first "/pdf" href. -/

theorem pdfLoop_spec (links : List Link) :
    (∀ l ∈ links, isVstrB l.href = true) → pdfLoop links = .ok (firstPdfSpec links) := by
  induction links with
  | nil => intro _; rfl
  | cons l rest ih =>
    intro h
    have hl := h l (List.mem_cons_self l rest)
    have ihr := ih (fun x hx => h x (List.mem_cons_of_mem l hx))
    cases hh : l.href with
    | vstr s =>
      cases hc : strContains s "/pdf" with
      | true => simp [pdfLoop, firstPdfSpec, hh, pyContains, hc]
      | false => simp [pdfLoop, firstPdfSpec, hh, pyContains, hc, ihr]
    | vdict d => rw [hh] at hl; simp [isVstrB] at hl
    | vlist xs => rw [hh] at hl; simp [isVstrB] at hl
    | vnone => rw [hh] at hl; simp [isVstrB] at hl

theorem firstPdfSpec_none_iff (links : List Link) :
    firstPdfSpec links = .vnone ↔
      ∀ l ∈ links, ∀ s, l.href = .vstr s → strContains s "/pdf" = false := by
  induction links with
  | nil => simp [firstPdfSpec]
  | cons l rest ih =>
    cases hh : l.href with
    | vstr s =>
      cases hc : strContains s "/pdf" with
      | true =>
        have hfs : firstPdfSpec (l :: rest) = .vstr s := by
          simp [firstPdfSpec, hh, hc]
        rw [hfs]
        constructor
        · intro habs; exact DVal.noConfusion habs
        · intro hf
          have h2 := hf l (List.mem_cons_self l rest) s hh
          rw [hc] at h2
          exact Bool.noConfusion h2
      | false =>
        have hfs : firstPdfSpec (l :: rest) = firstPdfSpec rest := by
          simp [firstPdfSpec, hh, hc]
        rw [hfs, ih]
        constructor
        · intro hf x hx s2 hs2
          rcases List.mem_cons.mp hx with hx1 | hx2
          · subst hx1
            rw [hh] at hs2
            injection hs2 with h3
            subst h3
            exact hc
          · exact hf x hx2 s2 hs2
        · intro hf x hx s2 hs2
          exact hf x (List.mem_cons_of_mem l hx) s2 hs2
    | vdict d =>
      have hfs : firstPdfSpec (l :: rest) = firstPdfSpec rest := by
        simp [firstPdfSpec, hh]
      rw [hfs, ih]
      constructor
      · intro hf x hx s2 hs2
        rcases List.mem_cons.mp hx with hx1 | hx2
        · subst hx1; rw [hh] at hs2; exact DVal.noConfusion hs2
        · exact hf x hx2 s2 hs2
      · intro hf x hx s2 hs2
        exact hf x (List.mem_cons_of_mem l hx) s2 hs2
    | vlist xs =>
      have hfs : firstPdfSpec (l :: rest) = firstPdfSpec rest := by
        simp [firstPdfSpec, hh]
      rw [hfs, ih]
      constructor
      · intro hf x hx s2 hs2
        rcases List.mem_cons.mp hx with hx1 | hx2
        · subst hx1; rw [hh] at hs2; exact DVal.noConfusion hs2
        · exact hf x hx2 s2 hs2
      · intro hf x hx s2 hs2
        exact hf x (List.mem_cons_of_mem l hx) s2 hs2
    | vnone =>
      have hfs : firstPdfSpec (l :: rest) = firstPdfSpec rest := by
        simp [firstPdfSpec, hh]
      rw [hfs, ih]
      constructor
      · intro hf x hx s2 hs2
        rcases List.mem_cons.mp hx with hx1 | hx2
        · subst hx1; rw [hh] at hs2; exact DVal.noConfusion hs2
        · exact hf x hx2 s2 hs2
      · intro hf x hx s2 hs2
        exact hf x (List.mem_cons_of_mem l hx) s2 hs2

/-- C6: when every link's href is a string, extract_pdf_link returns the href
of the first link (in original order) whose href contains "/pdf", and None
exactly when no link's href contains that substring (including the empty
list). -/
theorem c6_first_pdf_link (links : List Link)
    (h : ∀ l ∈ links, isVstrB l.href = true) :
    extract_pdf_link links = .ok (firstPdfSpec links) ∧
    (firstPdfSpec links = .vnone ↔
      ∀ l ∈ links, ∀ s, l.href = .vstr s → strContains s "/pdf" = false) := by
  refine ⟨?_, firstPdfSpec_none_iff links⟩
  cases links with
  | nil => rfl
  | cons l rest =>
    unfold extract_pdf_link
    rw [if_neg (by simp)]
    exact pdfLoop_spec (l :: rest) h

/-- C6 witness: on three string-href links the second (the first containing
"/pdf") is selected. -/
theorem c6_witness :
    (∀ l ∈ linksAllStr, isVstrB l.href = true) ∧
    (extract_pdf_link linksAllStr = .ok (firstPdfSpec linksAllStr) ∧
     (firstPdfSpec linksAllStr = .vnone ↔
       ∀ l ∈ linksAllStr, ∀ s, l.href = .vstr s → strContains s "/pdf" = false)) :=
  ⟨by decide, c6_first_pdf_link linksAllStr (by decide)⟩

/-! C7: each extractor treats a single node and its one-element list alike. -/

theorem isSetOrder_nil (f : List String → List String) (hf : IsSetOrder f) : f [] = [] := by
  have h := hf []
  rw [List.dedup_nil] at h
  exact h.eq_nil

theorem isSetOrder_singleton (f : List String → List String) (hf : IsSetOrder f)
    (a : String) : f [a] = [a] := by
  have h := hf [a]
  have hd : ([a] : List String).dedup = [a] := by
    rw [List.dedup_cons_of_not_mem (List.not_mem_nil a), List.dedup_nil]
  rw [hd] at h
  exact List.perm_singleton.mp h

theorem authors_singleton (d : List (String × DVal)) :
    extract_authors (.vdict d) = extract_authors (.vlist [.vdict d]) := by
  cases d with
  | nil => rfl
  | cons p ps =>
    have hg : pyGet (DVal.vdict (p :: ps)) "name" (DVal.vdict []) =
        .ok ((dictGet (p :: ps) "name").getD (DVal.vdict [])) := rfl
    have htr : truthy (DVal.vdict (p :: ps)) = true := rfl
    have htr2 : truthy (DVal.vlist [DVal.vdict (p :: ps)]) = true := rfl
    cases hn : pyGet ((dictGet (p :: ps) "name").getD (DVal.vdict [])) "#text" DVal.vnone with
    | error e =>
      simp [extract_authors, htr, htr2, mapE, hg, hn]
    | ok name =>
      cases ht : truthy name with
      | true => simp [extract_authors, htr, htr2, mapE, hg, hn, List.filter, ht]
      | false => simp [extract_authors, htr, htr2, mapE, hg, hn, List.filter, ht]

theorem links_singleton (d : List (String × DVal)) :
    extract_links (.vdict d) = extract_links (.vlist [.vdict d]) := by
  cases d with
  | nil => rfl
  | cons p ps => simp [extract_links, truthy, mapE, List.filter]

theorem category_singleton (f : List String → List String) (hf : IsSetOrder f)
    (d : List (String × DVal))
    (hterm : truthy ((dictGet d "@term").getD .vnone) = false ∨
      isHashable ((dictGet d "@term").getD .vnone) = true) :
    extract_category f (.vdict d) = extract_category f (.vlist [.vdict d]) := by
  have h0 : f [] = [] := isSetOrder_nil f hf
  cases d with
  | nil =>
    have hR : extract_category f (.vlist [.vdict []]) = .ok ((f []).map DVal.vstr) := rfl
    rw [hR, h0]
    rfl
  | cons p ps =>
    have hg : pyGet (DVal.vdict (p :: ps)) "@term" DVal.vnone =
        .ok ((dictGet (p :: ps) "@term").getD DVal.vnone) := rfl
    have htr : truthy (DVal.vdict (p :: ps)) = true := rfl
    have htr2 : truthy (DVal.vlist [DVal.vdict (p :: ps)]) = true := rfl
    cases hte : (dictGet (p :: ps) "@term").getD DVal.vnone with
    | vstr s =>
      by_cases hs : s = ""
      · subst hs
        simp [extract_category, htr, htr2, mapE, hg, hte, truthy, List.filter, h0]
      · have h1 : f [s] = [s] := isSetOrder_singleton f hf s
        have hbe : (s == "") = false := by simp [hs]
        simp [extract_category, htr, htr2, mapE, hg, hte, truthy, List.filter,
          isHashable, asStr, h1, hs, hbe]
    | vnone =>
      simp [extract_category, htr, htr2, mapE, hg, hte, truthy, List.filter, h0]
    | vdict dd =>
      rcases hterm with h1 | h2
      · rw [hte] at h1
        cases dd with
        | nil =>
          simp [extract_category, htr, htr2, mapE, hg, hte, truthy, List.filter, h0]
        | cons q qs => simp [truthy] at h1
      · rw [hte] at h2
        simp [isHashable] at h2
    | vlist ll =>
      rcases hterm with h1 | h2
      · rw [hte] at h1
        cases ll with
        | nil =>
          simp [extract_category, htr, htr2, mapE, hg, hte, truthy, List.filter, h0]
        | cons q qs => simp [truthy] at h1
      · rw [hte] at h2
        simp [isHashable] at h2

/-- C7: for every node `d` (a dict, as the Tree Converter produces for an
element) whose "@term" attribute is not an unhashable truthy value — which is
automatic for converted nodes, where attribute values are strings — each
extractor applied to the single node yields the same list as the extractor
applied to the one-element sequence around it, for every admissible
set-iteration order. -/
theorem c7_singleton_uniformity (f : List String → List String) (hf : IsSetOrder f)
    (d : List (String × DVal))
    (hterm : truthy ((dictGet d "@term").getD .vnone) = false ∨
      isHashable ((dictGet d "@term").getD .vnone) = true) :
    extract_authors (.vdict d) = extract_authors (.vlist [.vdict d]) ∧
    extract_links (.vdict d) = extract_links (.vlist [.vdict d]) ∧
    extract_category f (.vdict d) = extract_category f (.vlist [.vdict d]) :=
  ⟨authors_singleton d, links_singleton d, category_singleton f hf d hterm⟩

/-- C7 witness: a concrete author/category node under the first-occurrence
set order. -/
theorem c7_witness :
    extract_authors (.vdict [("name", .vdict [("#text", .vstr "Alice")]),
        ("@term", .vstr "cs.AI")]) =
      extract_authors (.vlist [.vdict [("name", .vdict [("#text", .vstr "Alice")]),
        ("@term", .vstr "cs.AI")]]) ∧
    extract_links (.vdict [("name", .vdict [("#text", .vstr "Alice")]),
        ("@term", .vstr "cs.AI")]) =
      extract_links (.vlist [.vdict [("name", .vdict [("#text", .vstr "Alice")]),
        ("@term", .vstr "cs.AI")]]) ∧
    extract_category stdOrd (.vdict [("name", .vdict [("#text", .vstr "Alice")]),
        ("@term", .vstr "cs.AI")]) =
      extract_category stdOrd (.vlist [.vdict [("name", .vdict [("#text", .vstr "Alice")]),
        ("@term", .vstr "cs.AI")]]) :=
  c7_singleton_uniformity stdOrd (fun l => List.Perm.refl l.dedup)
    [("name", .vdict [("#text", .vstr "Alice")]), ("@term", .vstr "cs.AI")]
    (Or.inr rfl)

/-! C9: normalization is deterministic only up to the set-iteration order. -/

theorem isSetOrder_stdOrd : IsSetOrder stdOrd := fun l => List.Perm.refl l.dedup

theorem isSetOrder_revOrd : IsSetOrder revOrd := fun l => List.reverse_perm l.dedup

/-- extract_category under two admissible set-iteration orders: same error, or
two result lists that are permutations of each other. -/
theorem extract_category_ord_perm (o1 o2 : List String → List String)
    (h1 : IsSetOrder o1) (h2 : IsSetOrder o2) (c : DVal) :
    (∃ e, extract_category o1 c = .error e ∧ extract_category o2 c = .error e) ∨
    (∃ l1 l2, extract_category o1 c = .ok l1 ∧ extract_category o2 c = .ok l2 ∧
      List.Perm l1 l2) := by
  cases hc : truthy c with
  | false =>
    right
    exact ⟨[], [], by simp [extract_category, hc], by simp [extract_category, hc],
      List.Perm.refl []⟩
  | true =>
    cases c with
    | vstr s =>
      left
      exact ⟨.typeError, by simp [extract_category, hc], by simp [extract_category, hc]⟩
    | vnone => simp [truthy] at hc
    | vdict d =>
      right
      refine ⟨(if truthy ((dictGet d "@term").getD .vnone) then
          [(dictGet d "@term").getD .vnone] else []),
        (if truthy ((dictGet d "@term").getD .vnone) then
          [(dictGet d "@term").getD .vnone] else []), ?_, ?_, List.Perm.refl _⟩
      · simp [extract_category, hc]
      · simp [extract_category, hc]
    | vlist entries =>
      cases hm : mapE (fun e => pyGet e "@term" .vnone) (entries.filter truthy) with
      | error e =>
        left
        exact ⟨e, by simp [extract_category, hc, hm], by simp [extract_category, hc, hm]⟩
      | ok terms =>
        cases hh : (terms.filter truthy).all isHashable with
        | false =>
          left
          exact ⟨.typeError, by simp [extract_category, hc, hm, hh],
            by simp [extract_category, hc, hm, hh]⟩
        | true =>
          right
          refine ⟨(o1 ((terms.filter truthy).map asStr)).map DVal.vstr,
            (o2 ((terms.filter truthy).map asStr)).map DVal.vstr, ?_, ?_, ?_⟩
          · simp [extract_category, hc, hm, hh]
          · simp [extract_category, hc, hm, hh]
          · exact List.Perm.map DVal.vstr ((h1 _).trans (h2 _).symm)

/-- C9 counterexample: the two-term category entry, normalized under two
admissible set-iteration orders (first-occurrence order and its reverse),
yields records that agree everywhere except in the order of the category
list — so byte-identical output across runs is not guaranteed, because
CPython's set iteration order varies with the string hash seed. -/
theorem c9_counterexample :
    IsSetOrder stdOrd ∧ IsSetOrder revOrd ∧
    (∃ r1 r2 : RawPaper, get_raw stdOrd entryTwoCats = .ok r1 ∧
      get_raw revOrd entryTwoCats = .ok r2 ∧
      r1.category = [DVal.vstr "cs.AI", DVal.vstr "cs.LG"] ∧
      r2.category = [DVal.vstr "cs.LG", DVal.vstr "cs.AI"] ∧
      r1.category ≠ r2.category) := by
  refine ⟨isSetOrder_stdOrd, isSetOrder_revOrd, _, _, rfl, rfl, rfl, rfl, ?_⟩
  show ¬ ([DVal.vstr "cs.AI", DVal.vstr "cs.LG"] = [DVal.vstr "cs.LG", DVal.vstr "cs.AI"])
  simp

/-- C9 amended: normalization is deterministic up to the runtime's set
iteration order: under any two admissible orders, __get_raw either fails with
the same error, or produces records that are byte-identical in every field
except `category`, whose two lists hold the same terms up to permutation. -/
theorem c9_amended_deterministic_up_to_set_order (o1 o2 : List String → List String)
    (h1 : IsSetOrder o1) (h2 : IsSetOrder o2) (item : DVal) :
    (∃ e, get_raw o1 item = .error e ∧ get_raw o2 item = .error e) ∨
    (∃ r1 r2, get_raw o1 item = .ok r1 ∧ get_raw o2 item = .ok r2 ∧
      r1.id = r2.id ∧ r1.updated = r2.updated ∧ r1.published = r2.published ∧
      r1.title = r2.title ∧ r1.summary = r2.summary ∧ r1.author = r2.author ∧
      r1.links = r2.links ∧ r1.primary_category = r2.primary_category ∧
      r1.content = r2.content ∧ List.Perm r1.category r2.category) := by
  cases hp : preFields item with
  | error e =>
    left
    exact ⟨e, by simp [get_raw, hp, ebind_error], by simp [get_raw, hp, ebind_error]⟩
  | ok p =>
    cases hcg : pyGet item "category" .vnone with
    | error e =>
      left
      exact ⟨e, by simp [get_raw, hp, ebind_ok, hcg, ebind_error],
        by simp [get_raw, hp, ebind_ok, hcg, ebind_error]⟩
    | ok catv =>
      rcases extract_category_ord_perm o1 o2 h1 h2 catv with
        ⟨e, he1, he2⟩ | ⟨l1, l2, hc1, hc2, hperm⟩
      · left
        exact ⟨e, by simp [get_raw, hp, ebind_ok, hcg, he1, ebind_error],
          by simp [get_raw, hp, ebind_ok, hcg, he2, ebind_error]⟩
      · cases hpg : pyGet item "primary_category" .vnone with
        | error e =>
          left
          exact ⟨e, by simp [get_raw, hp, ebind_ok, hcg, hc1, hpg, ebind_error],
            by simp [get_raw, hp, ebind_ok, hcg, hc2, hpg, ebind_error]⟩
        | ok pcv =>
          cases hpc : extract_primary_category pcv with
          | error e =>
            left
            exact ⟨e, by simp [get_raw, hp, ebind_ok, hcg, hc1, hpg, hpc, ebind_error],
              by simp [get_raw, hp, ebind_ok, hcg, hc2, hpg, hpc, ebind_error]⟩
          | ok pc =>
            right
            refine ⟨RawPaper.mk p.id p.updated p.published (cleanTextD p.title)
                p.summary p.author p.links l1 pc DVal.vnone,
              RawPaper.mk p.id p.updated p.published (cleanTextD p.title)
                p.summary p.author p.links l2 pc DVal.vnone,
              ?_, ?_, rfl, rfl, rfl, rfl, rfl, rfl, rfl, rfl, rfl, hperm⟩
            · simp [get_raw, hp, ebind_ok, hcg, hc1, hpg, hpc, epure]
            · simp [get_raw, hp, ebind_ok, hcg, hc2, hpg, hpc, epure]

/-- C9 witness: the amended determinism statement at the two-term entry under
the first-occurrence order on both sides. -/
theorem c9_witness :
    (∃ e, get_raw stdOrd entryTwoCats = .error e ∧ get_raw stdOrd entryTwoCats = .error e) ∨
    (∃ r1 r2, get_raw stdOrd entryTwoCats = .ok r1 ∧ get_raw stdOrd entryTwoCats = .ok r2 ∧
      r1.id = r2.id ∧ r1.updated = r2.updated ∧ r1.published = r2.published ∧
      r1.title = r2.title ∧ r1.summary = r2.summary ∧ r1.author = r2.author ∧
      r1.links = r2.links ∧ r1.primary_category = r2.primary_category ∧
      r1.content = r2.content ∧ List.Perm r1.category r2.category) :=
  c9_amended_deterministic_up_to_set_order stdOrd stdOrd isSetOrder_stdOrd
    isSetOrder_stdOrd entryTwoCats

/-! C5: repeated sibling tags become an ordered list in xml_to_dict. -/

theorem dictGet_dictSet_self (d : List (String × DVal)) (k : String) (v : DVal) :
    dictGet (dictSet d k v) k = some v := by
  induction d with
  | nil => simp [dictGet, dictSet]
  | cons p rest ih =>
    by_cases hp : p.1 = k
    · simp [dictGet, dictSet, hp]
    · simp [dictGet, dictSet, hp, ih]

theorem dictGet_dictSet_ne (d : List (String × DVal)) (kp k : String) (v : DVal)
    (h : ¬ kp = k) : dictGet (dictSet d kp v) k = dictGet d k := by
  induction d with
  | nil => simp [dictGet, dictSet, h]
  | cons p rest ih =>
    by_cases hp : p.1 = kp
    · have hpk : ¬ p.1 = k := by rw [hp]; exact h
      simp [dictGet, dictSet, hp, hpk, h]
    · have hkp : ¬ k = kp := fun hx => h hx.symm
      by_cases hk : p.1 = k
      · simp [dictGet, dictSet, hp, hk, hkp]
      · simp [dictGet, dictSet, hp, hk, hkp, ih]

theorem dictGet_insertChild_self (d : List (String × DVal)) (t : String) (v : DVal) :
    dictGet (insertChild d t v) t = some (stepVal (dictGet d t) v) := by
  unfold insertChild
  cases hg : dictGet d t with
  | none => simp [stepVal, dictGet_dictSet_self]
  | some old =>
    cases old with
    | vstr s => simp [stepVal, dictGet_dictSet_self]
    | vdict dd => simp [stepVal, dictGet_dictSet_self]
    | vlist xs => simp [stepVal, dictGet_dictSet_self]
    | vnone => simp [stepVal, dictGet_dictSet_self]

theorem dictGet_insertChild_ne (d : List (String × DVal)) (tp t : String) (v : DVal)
    (h : ¬ tp = t) : dictGet (insertChild d tp v) t = dictGet d t := by
  unfold insertChild
  cases hg : dictGet d tp with
  | none => exact dictGet_dictSet_ne d tp t v h
  | some old => cases old <;> exact dictGet_dictSet_ne d tp t _ h

theorem expectVal_step (prev : Option DVal) (v : DVal) (vs : List DVal)
    (hv : isVlist v = false) :
    expectVal prev (v :: vs) = expectVal (some (stepVal prev v)) vs := by
  cases prev with
  | none =>
    cases vs with
    | nil => cases v <;> rfl
    | cons w ws =>
      cases v with
      | vlist xs => simp [isVlist] at hv
      | vstr s => rfl
      | vdict dd => rfl
      | vnone => rfl
  | some old =>
    cases old with
    | vlist xs =>
      cases vs with
      | nil => rfl
      | cons w ws => simp [expectVal, stepVal]
    | vstr s => cases vs with | nil => rfl | cons w ws => rfl
    | vdict dd => cases vs with | nil => rfl | cons w ws => rfl
    | vnone => cases vs with | nil => rfl | cons w ws => rfl

theorem expectVal_none_long (vs : List DVal) (h : 2 ≤ vs.length) :
    expectVal none vs = some (.vlist vs) := by
  cases vs with
  | nil => simp at h
  | cons v rest =>
    cases rest with
    | nil => simp at h
    | cons w ws => rfl

theorem attrBase_get_none (attrib : List (String × String)) (t : String)
    (h : ∀ p ∈ attrib, ¬("@" ++ p.1 = t)) :
    dictGet (attrib.map (fun p => ("@" ++ p.1, DVal.vstr p.2))) t = none := by
  induction attrib with
  | nil => rfl
  | cons p rest ih =>
    have hp := h p (List.mem_cons_self p rest)
    simp only [List.map_cons, dictGet, hp, if_false]
    exact ih (fun q hq => h q (List.mem_cons_of_mem p hq))

/-- Invariant of the child-insertion loop: the value finally stored under tag
`t` is the previous value combined with the converted `t`-tagged children in
document order. -/
theorem xmlFold_get (t : String) (cs : List XmlElem) :
    ∀ res : List (String × DVal),
      dictGet (xmlFold res cs) t =
        expectVal (dictGet res t)
          ((cs.filter (fun c => stripNs c.tag == t)).map
            (fun c => DVal.vdict (xml_to_dict c))) := by
  induction cs with
  | nil => intro res; simp [xmlFold, expectVal]
  | cons c cs ih =>
    intro res
    rw [xmlFold, ih]
    by_cases ht : stripNs c.tag = t
    · have hfc : (c :: cs).filter (fun c => stripNs c.tag == t) =
          c :: cs.filter (fun c => stripNs c.tag == t) := by
        simp [List.filter_cons, ht]
      rw [hfc, List.map_cons, ht, dictGet_insertChild_self]
      exact (expectVal_step (dictGet res t) (.vdict (xml_to_dict c)) _ rfl).symm
    · have hfc : (c :: cs).filter (fun c => stripNs c.tag == t) =
          cs.filter (fun c => stripNs c.tag == t) := by
        simp [List.filter_cons, ht]
      rw [hfc, dictGet_insertChild_ne res (stripNs c.tag) t _ ht]

/-- C5: for every element and every key `t` that does not collide with an
attribute-derived key nor with the reserved "#text" key, when at least two
immediate children share the stripped tag `t`, the converted element stores
under `t` an ordered list of the children's conversions in document order —
the existing value having been promoted to a list and each repeat appended. -/
theorem c5_repeated_siblings (tag : String) (attrib : List (String × String))
    (children : List XmlElem) (text : Option String) (t : String)
    (hattr : ∀ p ∈ attrib, ¬("@" ++ p.1 = t)) (htext : ¬(t = "#text"))
    (hrep : 2 ≤ ((children.filter (fun c => stripNs c.tag == t)).length)) :
    dictGet (xml_to_dict (.mk tag attrib children text)) t =
      some (.vlist ((children.filter (fun c => stripNs c.tag == t)).map
        (fun c => DVal.vdict (xml_to_dict c)))) := by
  have hbase : dictGet (attrib.map (fun p => ("@" ++ p.1, DVal.vstr p.2))) t = none :=
    attrBase_get_none attrib t hattr
  have hfold : dictGet (xmlFold (attrib.map (fun p => ("@" ++ p.1, DVal.vstr p.2)))
      children) t =
      expectVal none ((children.filter (fun c => stripNs c.tag == t)).map
        (fun c => DVal.vdict (xml_to_dict c))) := by
    rw [xmlFold_get t children, hbase]
  have hlen : 2 ≤ ((children.filter (fun c => stripNs c.tag == t)).map
      (fun c => DVal.vdict (xml_to_dict c))).length := by
    rw [List.length_map]; exact hrep
  cases text with
  | none =>
    simp only [xml_to_dict]
    rw [hfold]
    exact expectVal_none_long _ hlen
  | some s =>
    simp only [xml_to_dict]
    by_cases hs : trimStr s = ""
    · rw [if_pos hs, hfold]
      exact expectVal_none_long _ hlen
    · rw [if_neg hs, dictGet_dictSet_ne _ _ _ _ (fun hx => htext hx.symm), hfold]
      exact expectVal_none_long _ hlen

/-- C5 witness: an element with an attribute, text, and two "author"
children. -/
theorem c5_witness :
    (∀ p ∈ [("x", "y")], ¬("@" ++ p.1 = "author")) ∧ ¬("author" = "#text") ∧
    2 ≤ (([XmlElem.mk "author" [] [] (some "A"), XmlElem.mk "author" [] [] (some "B")].filter
      (fun c => stripNs c.tag == "author")).length) ∧
    dictGet (xml_to_dict (.mk "entry" [("x", "y")]
        [.mk "author" [] [] (some "A"), .mk "author" [] [] (some "B")] (some "txt"))) "author" =
      some (.vlist (([XmlElem.mk "author" [] [] (some "A"),
        XmlElem.mk "author" [] [] (some "B")].filter (fun c => stripNs c.tag == "author")).map
        (fun c => DVal.vdict (xml_to_dict c)))) :=
  ⟨by decide, by decide, by decide,
    c5_repeated_siblings "entry" [("x", "y")]
      [.mk "author" [] [] (some "A"), .mk "author" [] [] (some "B")] (some "txt") "author"
      (by decide) (by decide) (by decide)⟩
